import Mathlib

/-!
Verification development for the hwinfo-oled-monitor repository.

Part 1 embeds the metric smoothing engine of
`src/hwinfo_oled_monitor.py` (`get_hwinfo_sensor_data`, lines 534-575).
Raw readings are Python ints (`int(float(sensor.value))`), modelled as `Int`;
Python's floor division `//` is modelled by `Int.fdiv`; the metric histories
are `collections.deque(maxlen=5)` objects, modelled as `List Int` with the
oldest reading at the head.

Part 2 embeds the shared-memory binary decoder of `src/pywhinfo.py`.
-/

set_option autoImplicit false

/-!
Part 2: the shared-memory binary decoder of `src/pywhinfo.py`.

The mapped region is a finite byte list; every ctypes field access of the
Python code becomes an explicit length-checked read returning `Option`.  A
`none` marks a read the unchecked Python code would perform outside the
mapped region, i.e. an out-of-bounds access.  The four IEEE-double value
fields are kept as their raw little-endian 64-bit patterns, which is all the
structural claims below need.
-/

/-- The literal weight list `weights = [1, 2, 3, 4, 5]` from the source. -/
def weights : List Int := [1, 2, 3, 4, 5]

/-- An `append` on a `deque(maxlen=5)`: when the deque already holds 5
elements the oldest (leftmost) element is discarded before the new reading is
added at the right. -/
def dequeAppend5 (h : List Int) (x : Int) : List Int :=
  if h.length = 5 then h.drop 1 ++ [x] else h ++ [x]

/-- Python's `list(history)[-5:]`: the last (up to) five elements. -/
def lastFive (h : List Int) : List Int :=
  h.drop (h.length - 5)

/-- Python's `sum(val * weights[i] for i, val in enumerate(recent_values))`.
Since `recent_values` never holds more than 5 elements, indexing `weights[i]`
agrees with pairing the two lists positionally. -/
def weightedSum (recent : List Int) : Int :=
  (List.zip recent weights).foldr (fun p acc => p.1 * p.2 + acc) 0

/-- The smoothing step shared verbatim by the CPU branch (lines 537-544) and
the GPU branch (lines 558-565): after the reading has been appended, emit a
weighted average once the history holds at least 3 entries, otherwise the raw
reading unchanged. -/
def smoothedEmit (h : List Int) (raw : Int) : Int :=
  if 3 ≤ h.length then
    (weightedSum (lastFive h)).fdiv ((weights.take (lastFive h).length).sum)
  else raw

/-- One poll of the CPU-load metric (lines 534-546): a positive raw reading is
appended to `cpu_load_history` and smoothed; a reading `≤ 0` leaves the
history untouched and emits 0.  There is no regime-change reset in this
branch of the source. -/
def cpuLoadStep (raw : Int) (h : List Int) : Int × List Int :=
  if raw > 0 then
    (smoothedEmit (dequeAppend5 h raw) raw, dequeAppend5 h raw)
  else (0, h)

/-- The GPU regime-change pre-step (lines 552-555): with a non-empty history,
`last_avg = sum(gpu_load_history) // len(gpu_load_history)` and the history is
cleared when `gpu_load_raw < last_avg - 3`. -/
def gpuRegimeCheck (h : List Int) (raw : Int) : List Int :=
  if h ≠ [] then
    if raw < (h.sum).fdiv (h.length : Int) - 3 then [] else h
  else h

/-- One poll of the GPU-load metric (lines 550-567): a positive raw reading
first runs the regime-change check, is then appended to `gpu_load_history`
and smoothed; a reading `≤ 0` leaves the history untouched and emits 0. -/
def gpuLoadStep (raw : Int) (h : List Int) : Int × List Int :=
  if raw > 0 then
    (smoothedEmit (dequeAppend5 (gpuRegimeCheck h raw) raw) raw,
     dequeAppend5 (gpuRegimeCheck h raw) raw)
  else (0, h)

/-- Feed a sequence of raw readings through a per-poll step, returning the
emitted values and the final history. -/
def runStream (step : Int → List Int → Int × List Int) :
    List Int → List Int → List Int × List Int
  | [], h => ([], h)
  | r :: rs, h =>
    let e := step r h
    let rest := runStream step rs e.2
    (e.1 :: rest.1, rest.2)

/-- RAM load computation (lines 571-575).  Both branches of the
`ram_usage == 0` conditional execute the same expression
`int(psutil.virtual_memory().percent)`; the externally sampled value is the
parameter `vmPercent`. -/
def ramLoadCalc (ram_usage : Int) (vmPercent : Int) : Int :=
  if ram_usage = 0 then vmPercent else vmPercent

/-- The emitted-value formula in the words of the specification: the integer
floor of (Σ readingᵢ × (i+1)) / (Σ of the weights used), where `i` indexes
the retained entries oldest-to-newest. -/
def specWeightedAvg (entries : List Int) : Int :=
  ((entries.enum.map (fun p => p.2 * ((p.1 : Int) + 1))).sum).fdiv
    (((List.range entries.length).map (fun i => ((i : Int) + 1))).sum)

/-- Read `n` bytes at offset `off`; `none` when the range is not fully inside
the region. -/
def readBytes (r : List Nat) (off n : Nat) : Option (List Nat) :=
  if off + n ≤ r.length then some ((r.drop off).take n) else none

/-- Little-endian value of a byte list. -/
def leVal (bs : List Nat) : Nat :=
  bs.foldr (fun b acc => b + 256 * acc) 0

/-- A `c_uint32` field access. -/
def readU32 (r : List Nat) (off : Nat) : Option Nat :=
  (readBytes r off 4).map leVal

/-- An 8-byte field access (c_int64 / c_double), kept as the raw pattern. -/
def readU64 (r : List Nat) (off : Nat) : Option Nat :=
  (readBytes r off 8).map leVal

/-- Modelled after CPython's incremental UTF-8 decoder with
`errors='ignore'`: well-formed sequences decode to their code point, the
bytes of a maximal ill-formed subpart are skipped, and a sequence truncated
by the end of input is consumed as an error with nothing emitted. -/
def utf8DecodeIgnore : List Nat → List Nat
  | [] => []
  | b :: rest =>
    if b < 0x80 then b :: utf8DecodeIgnore rest
    else if b < 0xC2 then utf8DecodeIgnore rest
    else if b < 0xE0 then
      match rest with
      | [] => []
      | b1 :: rest1 =>
        if 0x80 ≤ b1 ∧ b1 < 0xC0 then
          ((b - 0xC0) * 64 + (b1 - 0x80)) :: utf8DecodeIgnore rest1
        else utf8DecodeIgnore (b1 :: rest1)
    else if b < 0xF0 then
      match rest with
      | [] => []
      | b1 :: rest1 =>
        if (if b = 0xE0 then 0xA0 else 0x80) ≤ b1 ∧
            b1 < (if b = 0xED then 0xA0 else 0xC0) then
          match rest1 with
          | [] => []
          | b2 :: rest2 =>
            if 0x80 ≤ b2 ∧ b2 < 0xC0 then
              ((b - 0xE0) * 4096 + (b1 - 0x80) * 64 + (b2 - 0x80)) ::
                utf8DecodeIgnore rest2
            else utf8DecodeIgnore (b2 :: rest2)
        else utf8DecodeIgnore (b1 :: rest1)
    else if b < 0xF5 then
      match rest with
      | [] => []
      | b1 :: rest1 =>
        if (if b = 0xF0 then 0x90 else 0x80) ≤ b1 ∧
            b1 < (if b = 0xF4 then 0x90 else 0xC0) then
          match rest1 with
          | [] => []
          | b2 :: rest2 =>
            if 0x80 ≤ b2 ∧ b2 < 0xC0 then
              match rest2 with
              | [] => []
              | b3 :: rest3 =>
                if 0x80 ≤ b3 ∧ b3 < 0xC0 then
                  ((b - 0xF0) * 262144 + (b1 - 0x80) * 4096 +
                    (b2 - 0x80) * 64 + (b3 - 0x80)) :: utf8DecodeIgnore rest3
                else utf8DecodeIgnore (b3 :: rest3)
            else utf8DecodeIgnore (b2 :: rest2)
        else utf8DecodeIgnore (b1 :: rest1)
    else utf8DecodeIgnore rest

/-- A ctypes `c_char * N` struct field access (the strlen-style getter): the
raw field bytes up to the first NUL byte, or the full field when no NUL is
present. -/
def ctypesCharValue : List Nat → List Nat
  | [] => []
  | b :: rest => if b = 0 then [] else b :: ctypesCharValue rest

/-- Python `str.strip` of NUL characters applied to the decoded code
points. -/
def stripNul (cs : List Nat) : List Nat :=
  ((cs.dropWhile (fun c => c == 0)).reverse.dropWhile (fun c => c == 0)).reverse

/-- One fixed-width text field as read in `Sensor.__init__` (lines 78-80):
ctypes truncation at the first NUL, `bytes.decode` with errors ignored, then
`strip` of NUL characters. -/
def decodeTextField (bs : List Nat) : List Nat :=
  stripNul (utf8DecodeIgnore (ctypesCharValue bs))

/-- HWiNFOHeader (lines 30-43); `last_update` keeps its raw 8-byte
pattern. -/
structure Header where
  magic : Nat
  version : Nat
  version2 : Nat
  last_update : Nat
  sensor_section_offset : Nat
  sensor_element_size : Nat
  sensor_element_count : Nat
  entry_section_offset : Nat
  entry_element_size : Nat
  entry_element_count : Nat
deriving Repr, DecidableEq

/-- One decoded Sensor object (lines 72-84). -/
structure Sensor where
  sensor_type : Nat
  sensor_index : Nat
  id : Nat
  label_original : List Nat
  label_user : List Nat
  unit : List Nat
  value : Nat
  value_min : Nat
  value_max : Nat
  value_avg : Nat
deriving Repr, DecidableEq

/-- Decode the packed HWiNFOEntry record at byte offset `base` and build the
Sensor from it exactly as `Sensor.__init__` does; `none` when any field lies
outside the region. -/
def readEntrySensor (r : List Nat) (base : Nat) : Option Sensor := do
  let ty ← readU32 r base
  let sidx ← readU32 r (base + 4)
  let sid ← readU32 r (base + 8)
  let no ← readBytes r (base + 12) 128
  let nu ← readBytes r (base + 140) 128
  let un ← readBytes r (base + 268) 16
  let v ← readU64 r (base + 284)
  let vmin ← readU64 r (base + 292)
  let vmax ← readU64 r (base + 300)
  let vavg ← readU64 r (base + 308)
  pure { sensor_type := ty, sensor_index := sidx, id := sid,
         label_original := decodeTextField no,
         label_user := decodeTextField nu,
         unit := decodeTextField un,
         value := v, value_min := vmin, value_max := vmax, value_avg := vavg }

/-- The loop body of `HWiNFO.iter_sensors` (lines 162-175) over an explicit
index list: for each index the entry's type field is read at
`entry_base + i * entry_element_size`; type-none entries are skipped, any
other entry is fully decoded and yielded.  No bound is ever compared against
the region length, so `none` (an out-of-bounds ctypes read) is the only
outcome on a truncated region. -/
def iterSensorsIdx (r : List Nat) (base stride : Nat) : List Nat → Option (List Sensor)
  | [] => some []
  | i :: is =>
    match readU32 r (base + i * stride) with
    | none => none
    | some ty =>
      if ty = 0 then iterSensorsIdx r base stride is
      else
        match readEntrySensor r (base + i * stride) with
        | none => none
        | some s =>
          match iterSensorsIdx r base stride is with
          | none => none
          | some rest => some (s :: rest)

/-- `HWiNFO.iter_sensors`, consumed to a list, with `for i in
range(entry_element_count)`. -/
def iterSensors (r : List Nat) (h : Header) : Option (List Sensor) :=
  iterSensorsIdx r h.entry_section_offset h.entry_element_size
    (List.range h.entry_element_count)

/-- The scan of `HWiNFO.get_sensor_by_id` (lines 177-185): the generator is
consumed only until the first matching sensor, so entries after a match are
never read. -/
def findSensorIdx (r : List Nat) (base stride target : Nat) :
    List Nat → Except Unit (Option Sensor)
  | [] => .ok none
  | i :: is =>
    match readU32 r (base + i * stride) with
    | none => .error ()
    | some ty =>
      if ty = 0 then findSensorIdx r base stride target is
      else
        match readEntrySensor r (base + i * stride) with
        | none => .error ()
        | some s =>
          if s.id = target then .ok (some s)
          else findSensorIdx r base stride target is

/-- `HWiNFO.get_sensor_by_id`: `None` is answered immediately without
touching the region; otherwise the entries are scanned in table order. -/
def getSensorById (r : List Nat) (h : Header) (sensorId : Option Nat) :
    Except Unit (Option Sensor) :=
  match sensorId with
  | none => .ok none
  | some t =>
    findSensorIdx r h.entry_section_offset h.entry_element_size t
      (List.range h.entry_element_count)

/-- The protocol magic constant `HWINFO_HEADER_MAGIC` (line 15). -/
def HWINFO_HEADER_MAGIC : Nat := 0x53695748

/-- Materialise all HWiNFOHeader fields from the region start. -/
def decodeHeader (r : List Nat) : Option Header := do
  let magic ← readU32 r 0
  let version ← readU32 r 4
  let version2 ← readU32 r 8
  let lu ← readU64 r 12
  let sso ← readU32 r 20
  let ses ← readU32 r 24
  let sec ← readU32 r 28
  let eso ← readU32 r 32
  let ees ← readU32 r 36
  let eec ← readU32 r 40
  pure { magic := magic, version := version, version2 := version2,
         last_update := lu,
         sensor_section_offset := sso, sensor_element_size := ses,
         sensor_element_count := sec, entry_section_offset := eso,
         entry_element_size := ees, entry_element_count := eec }

inductive ConnectError where
  | invalidMagic
  | oobHeader
deriving Repr, DecidableEq

/-- The header-validation part of `HWiNFO._connect` (lines 144-154): ctypes
materialises the header view lazily, so the magic compare touches only the
leading 4 bytes; a mismatch raises the invalid-magic RuntimeError, otherwise
the header fields become available for later use.  `oobHeader` marks a field
access outside the mapped region. -/
def connectCheck (r : List Nat) : Except ConnectError Header :=
  match readU32 r 0 with
  | none => .error .oobHeader
  | some m =>
    if m ≠ HWINFO_HEADER_MAGIC then .error .invalidMagic
    else
      match decodeHeader r with
      | none => .error .oobHeader
      | some h => .ok h

/-- Two successive runs of the entry iteration over one static snapshot. -/
def decodeTwice (r : List Nat) (h : Header) :
    Option (List Sensor) × Option (List Sensor) :=
  (iterSensors r h, iterSensors r h)

instance {e a : Type} [DecidableEq e] [DecidableEq a] : DecidableEq (Except e a) :=
  fun x y =>
    match x, y with
    | .error u, .error v =>
      if h : u = v then .isTrue (by rw [h]) else .isFalse (by simp [h])
    | .error _, .ok _ => .isFalse (by simp)
    | .ok _, .error _ => .isFalse (by simp)
    | .ok u, .ok v =>
      if h : u = v then .isTrue (by rw [h]) else .isFalse (by simp [h])

/-- Little-endian 4-byte encoding used to build concrete test regions. -/
def u32le (n : Nat) : List Nat :=
  [n % 256, n / 256 % 256, n / 65536 % 256, n / 16777216 % 256]

/-- A well-formed 44-byte header image: correct magic, one 316-byte entry
declared at offset 44. -/
def goodHeaderBytes : List Nat :=
  u32le 0x53695748 ++ u32le 1 ++ u32le 2 ++ List.replicate 8 0 ++
    u32le 0 ++ u32le 0 ++ u32le 0 ++ u32le 44 ++ u32le 316 ++ u32le 1

/-- One well-formed 316-byte entry image: type 7 (usage), id 42, empty
labels, zero values. -/
def goodEntryBytes : List Nat :=
  u32le 7 ++ u32le 0 ++ u32le 42 ++ List.replicate 128 0 ++
    List.replicate 128 0 ++ List.replicate 16 0 ++ List.replicate 32 0

/-- A complete 360-byte snapshot: header plus its one declared entry. -/
def goodRegion : List Nat := goodHeaderBytes ++ goodEntryBytes

/-- The header decoded from `goodHeaderBytes`. -/
def goodHdr : Header :=
  { magic := 0x53695748, version := 1, version2 := 2, last_update := 0,
    sensor_section_offset := 0, sensor_element_size := 0, sensor_element_count := 0,
    entry_section_offset := 44, entry_element_size := 316, entry_element_count := 1 }

/-- The sensor decoded from `goodEntryBytes`. -/
def sensor42 : Sensor :=
  { sensor_type := 7, sensor_index := 0, id := 42, label_original := [],
    label_user := [], unit := [], value := 0, value_min := 0, value_max := 0,
    value_avg := 0 }

/-- A region holding only the 44 header bytes although the header declares
one 316-byte entry at offset 44. -/
def truncRegion : List Nat := goodHeaderBytes

/-- A region where the declared entry's leading type field is readable
(type 7) but the rest of the 316-byte record lies past the region's end. -/
def partialRegion : List Nat := goodHeaderBytes ++ u32le 7 ++ List.replicate 96 0

/-- The sequence in the specification's words: in table order, every decoded
entry whose type differs from the none tag. -/
def specEntrySeq (r : List Nat) (h : Header) : List Sensor :=
  (List.range h.entry_element_count).filterMap (fun i =>
    match readEntrySensor r (h.entry_section_offset + i * h.entry_element_size) with
    | some s => if s.sensor_type ≠ 0 then some s else none
    | none => none)

theorem dequeAppend5_length_le (h : List Int) (x : Int) (hl : h.length ≤ 5) :
    (dequeAppend5 h x).length ≤ 5 := by
  unfold dequeAppend5
  by_cases h5 : h.length = 5
  · simp [h5]
  · simp [h5]
    omega

theorem gpuRegimeCheck_length_le (h : List Int) (raw : Int) :
    (gpuRegimeCheck h raw).length ≤ h.length := by
  unfold gpuRegimeCheck
  by_cases hne : h ≠ [] <;> by_cases hlt : raw < (h.sum).fdiv (h.length : Int) - 3 <;>
    simp [hne, hlt]

theorem smoothedEmit_eq_spec (h : List Int) (hl : h.length ≤ 5) (raw : Int) :
    smoothedEmit h raw = if h.length < 3 then raw else specWeightedAvg h := by
  rcases h with _ | ⟨a, _ | ⟨b, _ | ⟨c, _ | ⟨d, _ | ⟨e, _ | ⟨f, t⟩⟩⟩⟩⟩⟩
  · simp [smoothedEmit]
  · simp [smoothedEmit]
  · simp [smoothedEmit]
  · simp only [smoothedEmit, specWeightedAvg, lastFive, weightedSum, weights,
      List.length_cons, List.length_nil, List.enum]
    norm_num [List.zip, List.zipWith, List.enumFrom, List.range_succ]
  · simp only [smoothedEmit, specWeightedAvg, lastFive, weightedSum, weights,
      List.length_cons, List.length_nil, List.enum]
    norm_num [List.zip, List.zipWith, List.enumFrom, List.range_succ]
  · simp only [smoothedEmit, specWeightedAvg, lastFive, weightedSum, weights,
      List.length_cons, List.length_nil, List.enum]
    norm_num [List.zip, List.zipWith, List.enumFrom, List.range_succ]
  · simp only [List.length_cons] at hl
    omega

/-- Claim C2 counterexample: with CPU history `[50, 50, 50]` (integer mean 50)
and a new reading 40 well below `mean - 3 = 47`, the code appends to the CPU
history without clearing it, so the regime-change rule demanded for "every
tracked load metric" does not hold for the CPU load metric. -/
theorem cpu_regime_counterexample :
    (cpuLoadStep 40 [50, 50, 50]).2 = [50, 50, 50, 40]
      ∧ (40 : Int) <
          (([50, 50, 50] : List Int).sum).fdiv
            ((([50, 50, 50] : List Int).length : Nat) : Int) - 3 := by
  decide

/-- Claim C2 (amended): only the GPU load history applies the regime-change
rule — before appending a new non-zero reading to a non-empty GPU history the
integer-truncated mean is computed and the history is cleared when the new
reading is below `mean - 3`; the CPU load history is never cleared, the new
reading is appended to the retained history even when the same drop condition
holds. -/
theorem regime_reset_gpu_only (x : Int) (h : List Int) (hx : 0 < x)
    (hne : h ≠ []) (hdrop : x < (h.sum).fdiv ((h.length : Nat) : Int) - 3) :
    (gpuLoadStep x h).2 = [x]
      ∧ (cpuLoadStep x h).2 = dequeAppend5 h x
      ∧ 2 ≤ (cpuLoadStep x h).2.length := by
  have hlen : 1 ≤ h.length := List.length_pos.mpr hne
  refine ⟨?_, ?_, ?_⟩
  · simp [gpuLoadStep, hx, gpuRegimeCheck, hne, hdrop, dequeAppend5]
  · simp [cpuLoadStep, hx]
  · simp only [cpuLoadStep, gt_iff_lt, if_pos hx, dequeAppend5]
    by_cases h5 : h.length = 5
    · simp [h5]
    · simp [h5]
      omega

/-- Witness for `regime_reset_gpu_only` at reading 40 against history
`[50, 50, 50]`. -/
theorem regime_reset_gpu_only_witness :
    (gpuLoadStep 40 [50, 50, 50]).2 = [40]
      ∧ (cpuLoadStep 40 [50, 50, 50]).2 = dequeAppend5 [50, 50, 50] 40
      ∧ 2 ≤ (cpuLoadStep 40 [50, 50, 50]).2.length :=
  regime_reset_gpu_only 40 [50, 50, 50] (by decide) (by decide) (by decide)

/-- Claim C3: for both load metrics, once a positive reading has been
appended, the emitted value is the raw reading when the history holds fewer
than 3 entries and otherwise the floor of the ascending-weight moving average
over the retained entries; in particular the constant raw sequence
`[10, 10, 10, 10, 10]` is emitted unchanged. -/
theorem smoothing_weighted_average (raw : Int) (h : List Int)
    (hl : h.length ≤ 5) (hpos : 0 < raw) :
    ((cpuLoadStep raw h).1 =
        if (cpuLoadStep raw h).2.length < 3 then raw
        else specWeightedAvg (cpuLoadStep raw h).2)
      ∧ ((gpuLoadStep raw h).1 =
        if (gpuLoadStep raw h).2.length < 3 then raw
        else specWeightedAvg (gpuLoadStep raw h).2)
      ∧ (runStream cpuLoadStep [10, 10, 10, 10, 10] []).1 = [10, 10, 10, 10, 10]
      ∧ (runStream gpuLoadStep [10, 10, 10, 10, 10] []).1 = [10, 10, 10, 10, 10] := by
  refine ⟨?_, ?_, by decide, by decide⟩
  · unfold cpuLoadStep
    rw [if_pos hpos]
    exact smoothedEmit_eq_spec (dequeAppend5 h raw) (dequeAppend5_length_le h raw hl) raw
  · unfold gpuLoadStep
    rw [if_pos hpos]
    exact smoothedEmit_eq_spec (dequeAppend5 (gpuRegimeCheck h raw) raw)
      (dequeAppend5_length_le (gpuRegimeCheck h raw) raw
        (le_trans (gpuRegimeCheck_length_le h raw) hl)) raw

/-- Witness for `smoothing_weighted_average` at reading 10 against history
`[10, 10]`. -/
theorem smoothing_weighted_average_witness :
    ((cpuLoadStep 10 [10, 10]).1 =
        if (cpuLoadStep 10 [10, 10]).2.length < 3 then 10
        else specWeightedAvg (cpuLoadStep 10 [10, 10]).2)
      ∧ ((gpuLoadStep 10 [10, 10]).1 =
        if (gpuLoadStep 10 [10, 10]).2.length < 3 then 10
        else specWeightedAvg (gpuLoadStep 10 [10, 10]).2)
      ∧ (runStream cpuLoadStep [10, 10, 10, 10, 10] []).1 = [10, 10, 10, 10, 10]
      ∧ (runStream gpuLoadStep [10, 10, 10, 10, 10] []).1 = [10, 10, 10, 10, 10] :=
  smoothing_weighted_average 10 [10, 10] (by decide) (by decide)

/-- Claim C4: a raw reading of exactly 0 leaves either load history untouched
(never appended, never a reset) and emits 0; for the raw sequence
`[0, 0, 0, 0, 10]` the four zeros leave the history empty and the fifth poll
emits 10 as a first-sample pass-through. -/
theorem zero_reading_policy :
    (∀ h : List Int, cpuLoadStep 0 h = (0, h) ∧ gpuLoadStep 0 h = (0, h))
      ∧ runStream cpuLoadStep [0, 0, 0, 0, 10] [] = ([0, 0, 0, 0, 10], [10])
      ∧ runStream gpuLoadStep [0, 0, 0, 0, 10] [] = ([0, 0, 0, 0, 10], [10]) := by
  refine ⟨fun h => ⟨?_, ?_⟩, by decide, by decide⟩
  · simp [cpuLoadStep]
  · simp [gpuLoadStep]

/-- Claim C9: the two branches of the `ram_usage == 0` conditional compute
the RAM-load percentage by the same expression, so the result does not depend
on whether the RAM-usage reading is zero. -/
theorem ram_load_branches_equal (u1 u2 v : Int) :
    ramLoadCalc u1 v = ramLoadCalc u2 v := by
  simp [ramLoadCalc]

theorem readU32_none_of_oob (r : List Nat) (off : Nat) (hoob : r.length < off + 4) :
    readU32 r off = none := by
  unfold readU32 readBytes
  rw [if_neg (by omega)]
  rfl

theorem iterSensorsIdx_oob (r : List Nat) (base stride : Nat) :
    ∀ is : List Nat, ∀ i ∈ is, r.length < base + i * stride + 4 →
      iterSensorsIdx r base stride is = none := by
  intro is
  induction is with
  | nil => intro i hi; simp at hi
  | cons j js ih =>
    intro i hi hoob
    unfold iterSensorsIdx
    rcases List.mem_cons.mp hi with rfl | hmem
    · rw [readU32_none_of_oob r _ hoob]
    · have hnone := ih i hmem hoob
      split
      · rfl
      · split
        · exact hnone
        · split
          · rfl
          · rw [hnone]

set_option maxRecDepth 40000 in
/-- Claim C1 counterexample: `partialRegion` is a 144-byte region whose
header declares one entry of 316 bytes at offset 44, an extent of 360 bytes.
The iteration reads the entry's type field (7, active) and then attempts to
read the remaining record fields past the end of the region: the result is
the out-of-bounds marker `none`, not any `Truncated` condition — the code
has no bounds check and no `Truncated` path at all. -/
theorem iter_sensors_oob_counterexample :
    iterSensors partialRegion goodHdr = none
      ∧ partialRegion.length <
          goodHdr.entry_section_offset +
            goodHdr.entry_element_count * goodHdr.entry_element_size := by
  constructor
  · decide
  · decide

/-- Claim C1 (amended): `iter_sensors` performs no bounds check and surfaces
no `Truncated` condition: whenever the header's declared entry offset, stride
and count place the type field of some entry `i` in `[0, count)` past the
mapped length, the iteration attempts an out-of-bounds read (modelled by
`none`) rather than stopping with a `Truncated` condition. -/
theorem iter_sensors_no_bounds_check (r : List Nat) (h : Header) (i : Nat)
    (hi : i < h.entry_element_count)
    (hoob : r.length < h.entry_section_offset + i * h.entry_element_size + 4) :
    iterSensors r h = none := by
  unfold iterSensors
  exact iterSensorsIdx_oob r h.entry_section_offset h.entry_element_size
    (List.range h.entry_element_count) i (List.mem_range.mpr hi) hoob

/-- Witness for `iter_sensors_no_bounds_check` on the 44-byte region whose
header declares one entry at offset 44. -/
theorem iter_sensors_no_bounds_check_witness :
    iterSensors truncRegion goodHdr = none :=
  iter_sensors_no_bounds_check truncRegion goodHdr 0 (by decide) (by decide)

/-- Claim C5: the connect-time header validation fails with the invalid-magic
error exactly when the little-endian value of the leading 4 bytes of the
region differs from the protocol constant `HWINFO_HEADER_MAGIC`; when the
leading value matches, no invalid-magic error arises. -/
theorem invalid_magic_iff (r : List Nat) (hr : 4 ≤ r.length) :
    connectCheck r = .error .invalidMagic ↔
      leVal (r.take 4) ≠ HWINFO_HEADER_MAGIC := by
  have hread : readU32 r 0 = some (leVal (r.take 4)) := by
    unfold readU32 readBytes
    rw [if_pos (by omega)]
    simp
  unfold connectCheck
  rw [hread]
  show (if leVal (r.take 4) ≠ HWINFO_HEADER_MAGIC then
          Except.error ConnectError.invalidMagic
        else
          match decodeHeader r with
          | none => Except.error ConnectError.oobHeader
          | some hh => Except.ok hh) =
        Except.error ConnectError.invalidMagic ↔
      leVal (r.take 4) ≠ HWINFO_HEADER_MAGIC
  by_cases hm : leVal (r.take 4) = HWINFO_HEADER_MAGIC
  · rw [if_neg (by simp [hm])]
    cases hdh : decodeHeader r
    · simp [hm]
    · simp [hm]
  · rw [if_pos hm]
    simp [hm]

/-- Witness for `invalid_magic_iff`: a 44-byte all-zero region is rejected
with the invalid-magic error. -/
theorem invalid_magic_iff_witness :
    connectCheck (List.replicate 44 0) = .error .invalidMagic :=
  (invalid_magic_iff (List.replicate 44 0) (by decide)).mpr (by decide)

theorem readEntrySensor_type (r : List Nat) (base : Nat) (s : Sensor)
    (hs : readEntrySensor r base = some s) :
    readU32 r base = some s.sensor_type := by
  unfold readEntrySensor at hs
  simp only [Option.pure_def, Option.bind_eq_bind, Option.bind_eq_some,
    Option.some.injEq] at hs
  obtain ⟨ty, hty, sidx, h2, sid, h3, no, h4, nu, h5, un, h6, v, h7,
    vmin, h8, vmax, h9, vavg, h10, hpure⟩ := hs
  subst hpure
  exact hty

theorem iterSensorsIdx_filterMap (r : List Nat) (base stride : Nat) :
    ∀ (is : List Nat) (out : List Sensor),
      iterSensorsIdx r base stride is = some out →
      out = is.filterMap (fun i =>
        match readEntrySensor r (base + i * stride) with
        | some s => if s.sensor_type ≠ 0 then some s else none
        | none => none) := by
  intro is
  induction is with
  | nil =>
    intro out hout
    unfold iterSensorsIdx at hout
    simp only [Option.some.injEq] at hout
    subst hout
    simp
  | cons j js ih =>
    intro out hout
    unfold iterSensorsIdx at hout
    split at hout
    · simp at hout
    · rename_i ty heq
      by_cases hty0 : ty = 0
      · rw [if_pos hty0] at hout
        have hfj : (match readEntrySensor r (base + j * stride) with
            | some s => if s.sensor_type ≠ 0 then some s else none
            | none => none) = none := by
          cases hes2 : readEntrySensor r (base + j * stride) with
          | none => rfl
          | some s =>
            have hst := readEntrySensor_type r (base + j * stride) s hes2
            rw [heq] at hst
            injection hst with hst
            simp [← hst, hty0]
        rw [ih out hout]
        simp only [List.filterMap_cons]
        rw [hfj]
      · rw [if_neg hty0] at hout
        split at hout
        · simp at hout
        · rename_i s heq2
          split at hout
          · simp at hout
          · rename_i rest heq3
            simp only [Option.some.injEq] at hout
            subst hout
            have hst := readEntrySensor_type r (base + j * stride) s heq2
            rw [heq] at hst
            injection hst with hst
            have hsne : s.sensor_type ≠ 0 := by rw [← hst]; exact hty0
            rw [ih rest heq3]
            simp [List.filterMap_cons, heq2, hsne]

/-- Claim C7: whenever the iteration decodes a snapshot successfully, no
entry of the produced sequence carries the none type tag (0), and the
sequence equals the table-order filter of the decoded entry table, so the
surviving entries keep the relative order of their indices. -/
theorem type_none_filtered_order (r : List Nat) (h : Header) (out : List Sensor)
    (hout : iterSensors r h = some out) :
    (∀ s ∈ out, s.sensor_type ≠ 0) ∧ out = specEntrySeq r h := by
  have hfm := iterSensorsIdx_filterMap r h.entry_section_offset h.entry_element_size
    (List.range h.entry_element_count) out hout
  refine ⟨?_, hfm⟩
  intro s hs
  rw [hfm] at hs
  obtain ⟨i, hi, hfi⟩ := List.mem_filterMap.mp hs
  cases hes : readEntrySensor r (h.entry_section_offset + i * h.entry_element_size) with
  | none => rw [hes] at hfi; simp at hfi
  | some s2 =>
    rw [hes] at hfi
    by_cases hne : s2.sensor_type ≠ 0
    · simp only [if_pos hne, Option.some.injEq] at hfi
      subst hfi
      exact hne
    · simp only [if_neg hne] at hfi
      exact absurd hfi (by simp)

set_option maxRecDepth 40000 in
/-- Witness for `type_none_filtered_order` on the 360-byte snapshot. -/
theorem type_none_filtered_order_witness :
    (∀ s ∈ [sensor42], s.sensor_type ≠ 0)
      ∧ [sensor42] = specEntrySeq goodRegion goodHdr :=
  type_none_filtered_order goodRegion goodHdr [sensor42] (by decide)

/-- Claim C8: the entry iteration is a pure function of the snapshot bytes
and the header, so two successive runs over the same static snapshot produce
identical outcomes — the same sequence of decoded records, fields and order
included. -/
theorem decode_idempotent (r : List Nat) (h : Header) :
    (decodeTwice r h).1 = (decodeTwice r h).2 := rfl

theorem findSensorIdx_eq_find (r : List Nat) (base stride target : Nat) :
    ∀ (is : List Nat) (out : List Sensor),
      iterSensorsIdx r base stride is = some out →
      findSensorIdx r base stride target is =
        .ok (out.find? (fun s => s.id == target)) := by
  intro is
  induction is with
  | nil =>
    intro out hout
    unfold iterSensorsIdx at hout
    simp only [Option.some.injEq] at hout
    subst hout
    rfl
  | cons j js ih =>
    intro out hout
    unfold iterSensorsIdx at hout
    unfold findSensorIdx
    split at hout
    · simp at hout
    · rename_i ty heq
      by_cases hty0 : ty = 0
      · rw [if_pos hty0] at hout
        rw [if_pos hty0]
        exact ih out hout
      · rw [if_neg hty0] at hout
        rw [if_neg hty0]
        split at hout
        · simp at hout
        · rename_i s heq2
          split at hout
          · simp at hout
          · rename_i rest heq3
            simp only [Option.some.injEq] at hout
            subst hout
            by_cases hid : s.id = target
            · rw [if_pos hid]
              simp [List.find?, hid]
            · rw [if_neg hid]
              rw [ih rest heq3]
              have hbeq : (s.id == target) = false := beq_eq_false_iff_ne.mpr hid
              simp [List.find?, hbeq]

/-- Claim C10: `get_sensor_by_id` answers a `None` id immediately with `None`
for every region and header — even ones on which any scan would fault — so no
entry is read; for a concrete id it returns the first active entry of the
iteration sequence whose id matches, and `None` when no active entry
matches. -/
theorem get_sensor_by_id_spec :
    (∀ (r : List Nat) (h : Header), getSensorById r h none = .ok none)
      ∧ (∀ (r : List Nat) (h : Header) (t : Nat) (out : List Sensor),
          iterSensors r h = some out →
            getSensorById r h (some t) = .ok (out.find? (fun s => s.id == t))) := by
  constructor
  · intro r h
    rfl
  · intro r h t out hout
    exact findSensorIdx_eq_find r h.entry_section_offset h.entry_element_size t
      (List.range h.entry_element_count) out hout

set_option maxRecDepth 40000 in
/-- Witness for `get_sensor_by_id_spec`: on the 360-byte snapshot the lookup
of id 42 returns the decoded sensor. -/
theorem get_sensor_by_id_spec_witness :
    getSensorById goodRegion goodHdr (some 42) =
      .ok ([sensor42].find? (fun s => s.id == 42)) :=
  get_sensor_by_id_spec.2 goodRegion goodHdr 42 [sensor42] (by decide)

theorem utf8DecodeIgnore_ascii (xs : List Nat) (hxs : ∀ x ∈ xs, x < 0x80) :
    utf8DecodeIgnore xs = xs := by
  induction xs with
  | nil => rfl
  | cons a l ih =>
    have ha : a < 0x80 := hxs a (List.mem_cons_self a l)
    unfold utf8DecodeIgnore
    rw [if_pos ha, ih (fun x hx => hxs x (List.mem_cons_of_mem a hx))]

theorem utf8DecodeIgnore_drop_invalid (xs ys : List Nat) (b : Nat)
    (hxs : ∀ x ∈ xs, x < 0x80) (hys : ∀ y ∈ ys, y < 0x80)
    (hb : (0x80 ≤ b ∧ b < 0xC2) ∨ 0xF5 ≤ b) :
    utf8DecodeIgnore (xs ++ b :: ys) = xs ++ ys := by
  induction xs with
  | nil =>
    simp only [List.nil_append]
    unfold utf8DecodeIgnore
    have hb80 : ¬ b < 0x80 := by rcases hb with ⟨h1, _⟩ | h1 <;> omega
    rw [if_neg hb80]
    rcases hb with ⟨_, h2⟩ | h2
    · rw [if_pos h2]
      exact utf8DecodeIgnore_ascii ys hys
    · rw [if_neg (by omega : ¬ b < 0xC2), if_neg (by omega : ¬ b < 0xE0),
        if_neg (by omega : ¬ b < 0xF0), if_neg (by omega : ¬ b < 0xF5)]
      exact utf8DecodeIgnore_ascii ys hys
  | cons a l ih =>
    have ha : a < 0x80 := hxs a (List.mem_cons_self a l)
    simp only [List.cons_append]
    unfold utf8DecodeIgnore
    rw [if_pos ha, ih (fun x hx => hxs x (List.mem_cons_of_mem a hx))]

theorem ctypesCharValue_at_null (pre post : List Nat) (hpre : 0 ∉ pre) :
    ctypesCharValue (pre ++ 0 :: post) = pre := by
  induction pre with
  | nil =>
    unfold ctypesCharValue
    rw [List.nil_append]
    rfl
  | cons a l ih =>
    have ha : ¬ a = 0 := by
      intro h
      exact hpre (by simp [h])
    simp only [List.cons_append]
    unfold ctypesCharValue
    rw [if_neg ha, ih (fun hm => hpre (List.mem_cons_of_mem a hm))]

theorem ctypesCharValue_full (bs : List Nat) (h0 : 0 ∉ bs) :
    ctypesCharValue bs = bs := by
  induction bs with
  | nil => rfl
  | cons a l ih =>
    have ha : ¬ a = 0 := by
      intro h
      exact h0 (by simp [h])
    unfold ctypesCharValue
    rw [if_neg ha, ih (fun hm => h0 (List.mem_cons_of_mem a hm))]

set_option maxRecDepth 40000 in
/-- Claim C6 counterexample: a field beginning with the invalid byte 0xFF
followed by the letter A and NUL padding decodes to the one-character label
A: the invalid byte was dropped with nothing substituted in its place (in
particular no U+FFFD replacement character), refuting that invalid byte
sequences are replaced. -/
theorem text_field_ignore_counterexample :
    decodeTextField ([255, 65] ++ List.replicate 126 0) = [65]
      ∧ 0xFFFD ∉ decodeTextField ([255, 65] ++ List.replicate 126 0) :=
  ⟨by decide, by decide⟩

/-- Claim C6 (amended): each fixed-width text field is decoded from the
bytes up to the first null terminator (or the full field width when no null
is present); decoding is a total function — an invalid byte never fails the
record — but a byte that cannot start a valid UTF-8 sequence is dropped
(errors ignored), not replaced. -/
theorem text_field_decode_amended :
    (∀ pre post : List Nat, (0 ∉ pre) →
        ctypesCharValue (pre ++ 0 :: post) = pre)
      ∧ (∀ bs : List Nat, (0 ∉ bs) → ctypesCharValue bs = bs)
      ∧ (∀ xs ys : List Nat, ∀ b : Nat,
          (∀ x ∈ xs, x < 0x80) → (∀ y ∈ ys, y < 0x80) →
          ((0x80 ≤ b ∧ b < 0xC2) ∨ 0xF5 ≤ b) →
          utf8DecodeIgnore (xs ++ b :: ys) = xs ++ ys) :=
  ⟨ctypesCharValue_at_null, ctypesCharValue_full, utf8DecodeIgnore_drop_invalid⟩

/-- Witness for `text_field_decode_amended`: the field bytes H, NUL, c
truncate to H; the bytes H, 0xFF, i decode to Hi with the invalid byte
dropped. -/
theorem text_field_decode_amended_witness :
    ctypesCharValue ([72] ++ 0 :: [99]) = [72]
      ∧ utf8DecodeIgnore ([72] ++ 255 :: [105]) = [72] ++ [105] :=
  ⟨text_field_decode_amended.1 [72] [99] (by decide),
   text_field_decode_amended.2.2 [72] [105] 255 (by decide) (by decide) (by decide)⟩
